import Mathlib

/-!
Verification of the trireme-lib UDP datapath, policy lookup engine and
layered ACL cache, as a shallow embedding of the Go sources.

The embedding follows the source files:
* `acls` (ACLCache, `GetMatchingAction`) — the three-tier cache dispatcher is
  taken verbatim from the source; the inner per-tier `acl` structure is not in
  the provided sources and is modelled from the spec (longest-prefix sorted
  entries, observe-continue accumulation).
* `lookup` (PolicyDB) — only the unit tests of the package are in the provided
  sources; the `Search`/`AddPolicy` implementation is modelled from the spec
  and is validated below against every assertion of `TestFuncSearch`.
* `nfqdatapath/datapath_udp.go` — the UDP handshake engine, embedded with an
  explicit event trace for the externally visible effects (socket writes,
  conntrack updates, flow reports, queueing, rule insertion).
-/

namespace Trireme

/-! ## Flow policy data model (`policy.FlowPolicy`) -/

inductive FlowAction
  | Accept
  | Reject
  | Continue
deriving DecidableEq, Repr

inductive ObserveMode
  | ObserveNone
  | ObserveContinue
  | ObserveApply
deriving DecidableEq, Repr

structure FlowPolicy where
  action : FlowAction
  observeAction : ObserveMode
  policyID : String
  serviceID : String
deriving DecidableEq, Repr

/-- `catchAllPolicy` from `acls`: `{Action: Reject, PolicyID: "default", ServiceID: "default"}`. -/
def catchAllPolicy : FlowPolicy :=
  ⟨FlowAction.Reject, ObserveMode.ObserveNone, "default", "default"⟩

/-! ## ACL cache (`acls` package)

The outer `ACLCache.GetMatchingAction` is embedded directly from the source.
The inner tier type `acl` is not in the provided sources; it is modelled from
the spec: a tier is a list of CIDR entries (mask length, masked network,
port-range actions), iterated in list order (the source keeps them sorted by
descending mask length), where an observe-continue entry accumulates the
report policy without stopping iteration and any other matching entry decides
the packet policy. -/

structure PortAction where
  portMin : Nat
  portMax : Nat
  policy : FlowPolicy
deriving DecidableEq, Repr

structure ACLEntry where
  maskLen : Nat
  network : Nat
  ports : List PortAction
deriving DecidableEq, Repr

/-- CIDR containment: the IPv4 address (as a 32-bit value) masked to
`maskLen` bits equals the stored (already masked) network value. -/
def ipInCIDR (ip maskLen network : Nat) : Bool :=
  ip % 2 ^ 32 / 2 ^ (32 - maskLen) * 2 ^ (32 - maskLen) == network

/-- Modelled from the spec: `portActionList.lookup`.  Scans the port ranges;
an observe-continue match only fills a missing report policy and keeps
scanning, any other match decides the packet policy and terminates.
Returns `(report, packet, matched)`. -/
def portLookup : List PortAction → Nat → Option FlowPolicy →
    Option FlowPolicy × Option FlowPolicy × Bool
  | [], _, rep => (rep, none, false)
  | pa :: rest, port, rep =>
    if pa.portMin ≤ port ∧ port ≤ pa.portMax then
      if pa.policy.observeAction = ObserveMode.ObserveContinue then
        portLookup rest port (if rep.isNone then some pa.policy else rep)
      else
        ((if rep.isNone then some pa.policy else rep), some pa.policy, true)
    else
      portLookup rest port rep

/-- Modelled from the spec: `acl.getMatchingAction`.  Iterates the tier's
entries; an entry whose CIDR contains the IP is resolved through its port
list; a non-deciding pass threads the accumulated report policy onwards. -/
def aclGet : List ACLEntry → Nat → Nat → Option FlowPolicy →
    Option FlowPolicy × Option FlowPolicy × Bool
  | [], _, _, rep => (rep, none, false)
  | e :: rest, ip, port, rep =>
    if ipInCIDR ip e.maskLen e.network then
      match portLookup e.ports port rep with
      | (rep2, pkt, true) => (rep2, pkt, true)
      | (rep2, _, false) => aclGet rest ip port rep2
    else
      aclGet rest ip port rep

structure ACLCache where
  reject : List ACLEntry
  accept : List ACLEntry
  observe : List ACLEntry
deriving DecidableEq, Repr

structure MatchResult where
  report : Option FlowPolicy
  packet : Option FlowPolicy
  matched : Bool
deriving DecidableEq, Repr

/-- `ACLCache.GetMatchingAction`, embedded from the source: try the reject
tier, then the accept tier, then the observe tier, each time threading the
accumulated report policy; return on the first tier that matches; if none
matches, fill the missing report/packet policies with `catchAllPolicy` and
fail (`matched = false` models the non-nil error). -/
def getMatchingAction (c : ACLCache) (ip port : Nat) : MatchResult :=
  match aclGet c.reject ip port none with
  | (r1, p1, true) => ⟨r1, p1, true⟩
  | (r1, _, false) =>
    match aclGet c.accept ip port r1 with
    | (r2, p2, true) => ⟨r2, p2, true⟩
    | (r2, _, false) =>
      match aclGet c.observe ip port r2 with
      | (r3, p3, true) => ⟨r3, p3, true⟩
      | (r3, _, false) =>
        ⟨(if r3.isNone then some catchAllPolicy else r3), some catchAllPolicy, false⟩

/-- The policy of the first port-range entry that matches the port and is not
observe-continue (the entry that decides the packet policy). -/
def firstPortDecision : List PortAction → Nat → Option FlowPolicy
  | [], _ => none
  | pa :: rest, port =>
    if pa.portMin ≤ port ∧ port ≤ pa.portMax then
      if pa.policy.observeAction = ObserveMode.ObserveContinue then
        firstPortDecision rest port
      else some pa.policy
    else firstPortDecision rest port

/-- The policy of the first entry of a tier that decides `(ip, port)`. -/
def firstDecision : List ACLEntry → Nat → Nat → Option FlowPolicy
  | [], _, _ => none
  | e :: rest, ip, port =>
    if ipInCIDR ip e.maskLen e.network then
      match firstPortDecision e.ports port with
      | some pol => some pol
      | none => firstDecision rest ip port
    else firstDecision rest ip port

/-- An entry matches `(ip, port)` when its CIDR contains the IP and some port
range contains the port (whether deciding or observe-continue). -/
def entryMatches (e : ACLEntry) (ip port : Nat) : Bool :=
  ipInCIDR ip e.maskLen e.network &&
    e.ports.any (fun pa => decide (pa.portMin ≤ port ∧ port ≤ pa.portMax))

theorem portLookup_eq_firstPortDecision (ports : List PortAction) (port : Nat)
    (rep : Option FlowPolicy) :
    (portLookup ports port rep).2.1 = firstPortDecision ports port ∧
      (portLookup ports port rep).2.2 = (firstPortDecision ports port).isSome := by
  induction ports generalizing rep with
  | nil => simp [portLookup, firstPortDecision]
  | cons pa rest ih =>
    by_cases h : pa.portMin ≤ port ∧ port ≤ pa.portMax
    · by_cases hobs : pa.policy.observeAction = ObserveMode.ObserveContinue
      · simpa [portLookup, firstPortDecision, h, hobs] using
          ih (if rep.isNone then some pa.policy else rep)
      · simp [portLookup, firstPortDecision, h, hobs]
    · simpa [portLookup, firstPortDecision, h] using ih rep

theorem aclGet_eq_firstDecision (l : List ACLEntry) (ip port : Nat)
    (rep : Option FlowPolicy) :
    (aclGet l ip port rep).2.1 = firstDecision l ip port ∧
      (aclGet l ip port rep).2.2 = (firstDecision l ip port).isSome := by
  induction l generalizing rep with
  | nil => simp [aclGet, firstDecision]
  | cons e rest ih =>
    by_cases hin : ipInCIDR ip e.maskLen e.network
    · have hp := portLookup_eq_firstPortDecision e.ports port rep
      rcases hpk : portLookup e.ports port rep with ⟨rep2, pkt, m⟩
      rw [hpk] at hp
      cases m with
      | true =>
        rcases hfd : firstPortDecision e.ports port with _ | pol
        · rw [hfd] at hp; simp at hp
        · simp only [aclGet, hin, if_true, hpk]
          rw [hfd] at hp
          simp only [firstDecision, hin, if_true, hfd]
          exact ⟨hp.1, rfl⟩
      | false =>
        rcases hfd : firstPortDecision e.ports port with _ | pol
        · simp only [aclGet, hin, if_true, hpk]
          simp only [firstDecision, hin, if_true, hfd]
          exact ih rep2
        · rw [hfd] at hp; simp at hp
    · simp only [aclGet, firstDecision, hin]
      simpa using ih rep

/-- C1: `ACLCache.GetMatchingAction` consults the reject tier first and
returns on the first tier that matches.  If the reject tier decides
`(ip, port)` (its first matching, non-observe-continue entry has policy
`pol`), then the returned packet policy is `some pol`, the lookup succeeds,
and the result is independent of the contents of the accept and observe
tiers: no accept-tier entry can override a matching reject-tier entry. -/
theorem aclcache_reject_tier_wins (rej acc acc' obs obs' : List ACLEntry)
    (ip port : Nat) (pol : FlowPolicy)
    (h : firstDecision rej ip port = some pol) :
    (getMatchingAction ⟨rej, acc, obs⟩ ip port).packet = some pol ∧
      (getMatchingAction ⟨rej, acc, obs⟩ ip port).matched = true ∧
      getMatchingAction ⟨rej, acc, obs⟩ ip port =
        getMatchingAction ⟨rej, acc', obs'⟩ ip port := by
  have hg := aclGet_eq_firstDecision rej ip port none
  rcases hr : aclGet rej ip port none with ⟨r1, p1, m1⟩
  rw [hr] at hg
  rw [h] at hg
  simp only [Option.isSome_some] at hg
  obtain ⟨hp1, hm1⟩ := hg
  cases m1 with
  | true =>
    simp only [getMatchingAction, hr]
    exact ⟨by simpa using hp1, by trivial, by trivial⟩
  | false => simp at hm1

/-- Concrete reject-tier entry deciding IP 5 (a /32) at port 80 with a reject
policy, and an accept-tier entry covering the same address and port. -/
def rejectEntryEx : ACLEntry :=
  ⟨32, 5, [⟨80, 80, ⟨FlowAction.Reject, ObserveMode.ObserveNone, "r1", "s1"⟩⟩]⟩

def acceptEntryEx : ACLEntry :=
  ⟨8, 0, [⟨0, 65535, ⟨FlowAction.Accept, ObserveMode.ObserveNone, "a1", "s2"⟩⟩]⟩

theorem aclcache_reject_tier_wins_witness :
    ([rejectEntryEx] : List ACLEntry) ≠ [] ∧
      (getMatchingAction ⟨[rejectEntryEx], [acceptEntryEx], []⟩ 5 80).packet =
        some ⟨FlowAction.Reject, ObserveMode.ObserveNone, "r1", "s1"⟩ := by
  refine ⟨by decide, ?_⟩
  exact (aclcache_reject_tier_wins [rejectEntryEx] [acceptEntryEx] [] [] [] 5 80
    ⟨FlowAction.Reject, ObserveMode.ObserveNone, "r1", "s1"⟩ (by decide)).1

theorem portLookup_no_match (ports : List PortAction) (port : Nat)
    (rep : Option FlowPolicy)
    (h : ports.any (fun pa => decide (pa.portMin ≤ port ∧ port ≤ pa.portMax)) = false) :
    portLookup ports port rep = (rep, none, false) := by
  induction ports generalizing rep with
  | nil => simp [portLookup]
  | cons pa rest ih =>
    simp only [List.any_cons, Bool.or_eq_false_iff, decide_eq_false_iff_not] at h
    simp only [portLookup, h.1, if_false]
    exact ih rep (by simpa using h.2)

theorem aclGet_no_match (l : List ACLEntry) (ip port : Nat) (rep : Option FlowPolicy)
    (h : ∀ e ∈ l, entryMatches e ip port = false) :
    aclGet l ip port rep = (rep, none, false) := by
  induction l generalizing rep with
  | nil => simp [aclGet]
  | cons e rest ih =>
    have he := h e (List.mem_cons_self e rest)
    by_cases hin : ipInCIDR ip e.maskLen e.network
    · have hports : e.ports.any
          (fun pa => decide (pa.portMin ≤ port ∧ port ≤ pa.portMax)) = false := by
        simp only [entryMatches, hin, Bool.true_and] at he
        exact he
      simp only [aclGet, hin, if_true, portLookup_no_match e.ports port rep hports]
      exact ih rep (fun x hx => h x (List.mem_cons_of_mem e hx))
    · simp only [aclGet, hin, if_false]
      exact ih rep (fun x hx => h x (List.mem_cons_of_mem e hx))

/-- C8: when no entry in any of the three tiers matches `(ip, port)`,
`GetMatchingAction` fails (non-nil error) and returns the catch-all
`Reject/default/default` policy as both the report and the packet policy. -/
theorem aclcache_no_match_catchall (c : ACLCache) (ip port : Nat)
    (hrej : ∀ e ∈ c.reject, entryMatches e ip port = false)
    (hacc : ∀ e ∈ c.accept, entryMatches e ip port = false)
    (hobs : ∀ e ∈ c.observe, entryMatches e ip port = false) :
    getMatchingAction c ip port = ⟨some catchAllPolicy, some catchAllPolicy, false⟩ := by
  simp only [getMatchingAction, aclGet_no_match c.reject ip port none hrej,
    aclGet_no_match c.accept ip port none hacc,
    aclGet_no_match c.observe ip port none hobs, Option.isNone_none, if_true]

theorem aclcache_no_match_catchall_witness :
    (∀ e ∈ [rejectEntryEx], entryMatches e 5 99 = false) ∧
      getMatchingAction ⟨[rejectEntryEx], [], []⟩ 5 99 =
        ⟨some catchAllPolicy, some catchAllPolicy, false⟩ := by
  refine ⟨by decide, ?_⟩
  exact aclcache_no_match_catchall ⟨[rejectEntryEx], [], []⟩ 5 99
    (by decide) (by decide) (by decide)

/-! ## Policy DB (`lookup` package)

Modelled from the spec: the `lookup` implementation itself is not in the
provided sources, only its unit tests (`TestFuncSearch`, `TestFuncAddPolicy`).
The model below represents the database as the insertion-ordered list of
selectors (1-based index = position + 1) and implements `Search` as the spec
describes, with the scan/return discipline pinned by `TestFuncSearch`:

* per claim `k=v`: first mark violated NotEqual/KeyNotExists selectors, then
  credit exact equal-map hits, then prefix hits in descending prefix length
  (prefix length 0 encodes KeyExists), then NotEqual credits; a selector's
  counter is credited at most once per claim key;
* the first selector whose counter reaches its clause count during the scan
  is returned immediately (so an exact-value hit beats an earlier-inserted
  prefix rule, as `TestFuncSearch` requires for `domain=com.example.web`);
* a claim with no `=` is matched against clause rule-IDs;
* at finalization, KeyNotExists clauses of non-violated selectors are
  credited vacuously, and the smallest-index completed selector wins.

Every assertion of `TestFuncSearch` is proved below against this model. -/

inductive TagOperator
  | Equal
  | NotEqual
  | KeyExists
  | KeyNotExists
deriving DecidableEq, Repr

structure KeyValueOperator where
  key : String
  value : List String
  op : TagOperator
  id : String
deriving DecidableEq, Repr

structure TagSelector where
  clause : List KeyValueOperator
  policy : FlowPolicy
deriving DecidableEq, Repr

def strEndsStar (u : String) : Bool :=
  decide (u.data.getLast? = some '*')

def strDropLast (u : String) : String :=
  String.mk u.data.dropLast

def strTake (u : String) (n : Nat) : String :=
  String.mk (u.data.take n)

def strLen (u : String) : Nat :=
  u.data.length

/-- Split a tag of the form `k=v` at the first `=` (Go `strings.SplitN(t, "=", 2)`);
a tag with no `=` is a rule-ID reference. -/
def spanEq : List Char → Option (List Char × List Char)
  | [] => none
  | c :: rest =>
    if c = '=' then some ([], rest)
    else
      match spanEq rest with
      | some (k, v) => some (c :: k, v)
      | none => none

def splitKV (t : String) : Option (String × String) :=
  (spanEq t.data).map (fun kv => (String.mk kv.1, String.mk kv.2))

/-- A NotEqual/KeyNotExists clause violated by the claim `(k, v)`:
KeyNotExists on key `k` is violated by any claim with key `k`; NotEqual is
violated when `v` equals a listed value or starts with a listed prefix. -/
def clauseViolated (c : KeyValueOperator) (k v : String) : Bool :=
  decide (c.key = k) &&
    match c.op with
    | TagOperator.KeyNotExists => true
    | TagOperator.NotEqual =>
      c.value.any (fun u =>
        if strEndsStar u then decide (strTake v (strLen (strDropLast u)) = strDropLast u)
        else decide (u = v))
    | _ => false

def selViolated (sel : TagSelector) (k v : String) : Bool :=
  sel.clause.any (fun c => clauseViolated c k v)

/-- Exact equal-map hit: an Equal clause on key `k` listing the exact
(non-prefix) value `v`. -/
def exactEqualHit (sel : TagSelector) (k v : String) : Bool :=
  sel.clause.any (fun c =>
    decide (c.op = TagOperator.Equal) && decide (c.key = k) &&
      c.value.any (fun u => !strEndsStar u && decide (u = v)))

/-- Prefix hit of length `p`: an Equal clause on key `k` with a starred value
whose stripped prefix has length `p` and is a prefix of `v`, or a KeyExists
clause on `k` at prefix length 0. -/
def prefixHitAt (sel : TagSelector) (k v : String) (p : Nat) : Bool :=
  sel.clause.any (fun c =>
    decide (c.key = k) &&
      ((decide (c.op = TagOperator.Equal) &&
          c.value.any (fun u =>
            strEndsStar u && decide (strLen (strDropLast u) = p) &&
              decide (strTake v p = strDropLast u))) ||
        (decide (c.op = TagOperator.KeyExists) && decide (p = 0))))

/-- A selector listed in the NotEqual table for key `k`. -/
def notEqualListed (sel : TagSelector) (k : String) : Bool :=
  sel.clause.any (fun c => decide (c.key = k) && decide (c.op = TagOperator.NotEqual))

/-- A rule-ID hit: some clause carries the (non-empty) ID `t`. -/
def idHit (sel : TagSelector) (t : String) : Bool :=
  sel.clause.any (fun c => decide (c.id = t) && !decide (c.id = ""))

/-- Prefix lengths registered for key `k` by one clause (`0` encodes KeyExists). -/
def clausePrefixLens (c : KeyValueOperator) (k : String) : List Nat :=
  if c.key = k then
    match c.op with
    | TagOperator.Equal =>
      (c.value.filter (fun u => strEndsStar u)).map (fun u => strLen (strDropLast u))
    | TagOperator.KeyExists => [0]
    | _ => []
  else []

def insertDesc (n : Nat) : List Nat → List Nat
  | [] => [n]
  | m :: rest => if m ≤ n then n :: m :: rest else m :: insertDesc n rest

def sortDesc (l : List Nat) : List Nat :=
  l.foldr insertDesc []

/-- The distinct prefix lengths for key `k`, in descending order (the source
keeps `equalPrefixes[key]` sorted descending so longest prefixes are tried
first). -/
def prefixLens (db : List TagSelector) (k : String) : List Nat :=
  sortDesc ((db.foldr (fun sel acc =>
    sel.clause.foldr (fun c acc2 => clausePrefixLens c k ++ acc2) acc) []).dedup)

def defaultSelector : TagSelector :=
  ⟨[], catchAllPolicy⟩

def getSel (db : List TagSelector) (i : Nat) : TagSelector :=
  db.getD i defaultSelector

/-- Positions (0-based) of the selectors satisfying `p`, in insertion order. -/
def positionsWhere (db : List TagSelector) (p : TagSelector → Bool) : List Nat :=
  (List.range db.length).filter (fun i => p (getSel db i))

/-- Per-selector search state: match counter, violated flag, and the claim
keys already credited (a selector is credited at most once per key). -/
structure SelState where
  counter : Nat
  disabled : Bool
  matchedKeys : List String
deriving DecidableEq, Repr

def initState (db : List TagSelector) : List SelState :=
  db.map (fun _ => ⟨0, false, []⟩)

def applyViolations (db : List TagSelector) (st : List SelState) (k v : String) :
    List SelState :=
  (db.zip st).map (fun p => if selViolated p.1 k v then
    ⟨p.2.counter, true, p.2.matchedKeys⟩ else p.2)

/-- Credit one selector (position `i`) for dedup key `dk`; if its counter
reaches the clause count, the selector is returned immediately. -/
def applyInc (db : List TagSelector) (st : List SelState) (dk : String) (i : Nat) :
    List SelState × Option (Int × FlowPolicy) :=
  match st[i]? with
  | none => (st, none)
  | some s =>
    if s.disabled ∨ dk ∈ s.matchedKeys then (st, none)
    else
      let sel := getSel db i
      let st' := st.set i ⟨s.counter + 1, s.disabled, dk :: s.matchedKeys⟩
      if s.counter + 1 = sel.clause.length then (st', some ((i : Int) + 1, sel.policy))
      else (st', none)

def applyIncs (db : List TagSelector) (dk : String) :
    List SelState → List Nat → List SelState × Option (Int × FlowPolicy)
  | st, [] => (st, none)
  | st, i :: rest =>
    match applyInc db st dk i with
    | (st', some r) => (st', some r)
    | (st', none) => applyIncs db dk st' rest

def applyPrefixSteps (db : List TagSelector) (k v : String) :
    List SelState → List Nat → List SelState × Option (Int × FlowPolicy)
  | st, [] => (st, none)
  | st, p :: rest =>
    match applyIncs db k st (positionsWhere db (fun sel => prefixHitAt sel k v p)) with
    | (st', some r) => (st', some r)
    | (st', none) => applyPrefixSteps db k v st' rest

/-- Process one `k=v` claim: violations, exact hits, prefix hits in
descending length, then NotEqual credits. -/
def processKV (db : List TagSelector) (st : List SelState) (k v : String) :
    List SelState × Option (Int × FlowPolicy) :=
  let st1 := applyViolations db st k v
  match applyIncs db k st1 (positionsWhere db (fun sel => exactEqualHit sel k v)) with
  | (st2, some r) => (st2, some r)
  | (st2, none) =>
    match applyPrefixSteps db k v st2
        ((prefixLens db k).filter (fun p => p ≤ strLen v)) with
    | (st3, some r) => (st3, some r)
    | (st3, none) =>
      applyIncs db k st3 (positionsWhere db (fun sel => notEqualListed sel k))

/-- Process a claim with no `=` as a rule-ID reference. -/
def processID (db : List TagSelector) (st : List SelState) (t : String) :
    List SelState × Option (Int × FlowPolicy) :=
  applyIncs db t st (positionsWhere db (fun sel => idHit sel t))

def searchScan (db : List TagSelector) :
    List SelState → List String → List SelState ⊕ (Int × FlowPolicy)
  | st, [] => Sum.inl st
  | st, t :: rest =>
    match (match splitKV t with
           | some kv => processKV db st kv.1 kv.2
           | none => processID db st t) with
    | (_, some r) => Sum.inr r
    | (st', none) => searchScan db st' rest

/-- Finalization: credit KeyNotExists clauses of non-violated selectors
vacuously; the smallest-index selector whose counter reaches its clause
count wins. -/
def finalize (db : List TagSelector) (st : List SelState) : Option (Int × FlowPolicy) :=
  (List.range db.length).findSome? (fun i =>
    match st[i]? with
    | none => none
    | some s =>
      let sel := getSel db i
      let bonus := (sel.clause.filter
        (fun c => decide (c.op = TagOperator.KeyNotExists))).length
      if !s.disabled && decide (s.counter + bonus = sel.clause.length) then
        some ((i : Int) + 1, sel.policy)
      else none)

/-- `PolicyDB.Search`: returns the 1-based index of the matched selector and
its policy, or `(-1, none)`. -/
def search (db : List TagSelector) (tags : List String) : Int × Option FlowPolicy :=
  match searchScan db (initState db) tags with
  | Sum.inr r => (r.1, some r.2)
  | Sum.inl st =>
    match finalize db st with
    | some r => (r.1, some r.2)
    | none => (-1, none)

/-! ### The `TestFuncSearch` database

The eleven selectors of `lookup` test `TestFuncSearch`, in insertion order
(policy 7 = `domain IN (com.example.*, com.*, com.longexample.*, com.ex.*)`,
policy 8 = `domain = com.example.web`). -/

def acceptPol : FlowPolicy := ⟨FlowAction.Accept, ObserveMode.ObserveNone, "", ""⟩

def appEqWeb : KeyValueOperator := ⟨"app", ["web"], TagOperator.Equal, "1"⟩

def envEqDemo : KeyValueOperator := ⟨"env", ["demo"], TagOperator.Equal, "2"⟩

def envEqDemoOrQa : KeyValueOperator := ⟨"env", ["demo", "qa"], TagOperator.Equal, "3"⟩

def dcKeyExists : KeyValueOperator := ⟨"dc", [], TagOperator.KeyExists, ""⟩

def langNotJava : KeyValueOperator := ⟨"lang", ["java"], TagOperator.NotEqual, ""⟩

def envNotDemoOrQA : KeyValueOperator := ⟨"env", ["demo", "qa"], TagOperator.NotEqual, ""⟩

def envKeyNotExists : KeyValueOperator := ⟨"env", [], TagOperator.KeyNotExists, ""⟩

def vulnerKey : KeyValueOperator := ⟨"vulnerability", ["high"], TagOperator.Equal, ""⟩

def vulnerLowKey : KeyValueOperator := ⟨"vulnerability", ["low"], TagOperator.Equal, ""⟩

def namespaceKey : KeyValueOperator := ⟨"namespace", ["/a/b/*"], TagOperator.Equal, ""⟩

def domainParent : KeyValueOperator :=
  ⟨"domain", ["com.example.*", "com.*", "com.longexample.*", "com.ex.*"], TagOperator.Equal, ""⟩

def domainFull : KeyValueOperator := ⟨"domain", ["com.example.web"], TagOperator.Equal, ""⟩

def testPolicyDB : List TagSelector :=
  [⟨[appEqWeb, envEqDemo], acceptPol⟩,
   ⟨[langNotJava], acceptPol⟩,
   ⟨[dcKeyExists], acceptPol⟩,
   ⟨[appEqWeb, envEqDemoOrQa], acceptPol⟩,
   ⟨[appEqWeb, envNotDemoOrQA], acceptPol⟩,
   ⟨[envKeyNotExists, appEqWeb], acceptPol⟩,
   ⟨[domainParent], acceptPol⟩,
   ⟨[domainFull], acceptPol⟩,
   ⟨[envKeyNotExists], acceptPol⟩,
   ⟨[vulnerKey], acceptPol⟩,
   ⟨[namespaceKey, vulnerLowKey], acceptPol⟩]

/-- The model reproduces every assertion of `TestFuncSearch`. -/
theorem search_matches_TestFuncSearch :
    (search testPolicyDB ["vulnerability=high"]).1 = 10 ∧
    (search testPolicyDB ["1"]).1 = 6 ∧
    search testPolicyDB ["namespace=/a/b/c/d", "env=privatedemo"] = (-1, none) ∧
    (search testPolicyDB ["namespace=/a/b/c/d", "vulnerability=low", "env=privatedemo"]).1 = 11 ∧
    search testPolicyDB ["app=web", "env=demo"] = (1, some acceptPol) ∧
    (search testPolicyDB ["lang=go", "env=demo"]).1 = 2 ∧
    (search testPolicyDB ["dc=EAST", "env=demo"]).1 = 3 ∧
    (search testPolicyDB ["app=web", "env=qa"]).1 = 4 ∧
    (search testPolicyDB ["app=web", "env=prod"]).1 = 5 ∧
    search testPolicyDB ["lang=java", "env=demo", "app=db"] = (-1, none) ∧
    search testPolicyDB ["tag=node", "env=node"] = (-1, none) ∧
    (search testPolicyDB ["app=web"]).1 = 6 ∧
    (search testPolicyDB ["domain=com.example.db"]).1 = 7 ∧
    (search testPolicyDB ["domain=com.example.web"]).1 = 8 ∧
    search testPolicyDB ["domain=co", "env=node"] = (-1, none) ∧
    (search testPolicyDB ["sometag=nomatch"]).1 = 9 := by
  decide

/-- C2 counterexample: on the `TestFuncSearch` database, `Search` on the
claim set `{domain=com.example.web}` does NOT return S7's index 7 — it
returns 8, the index of the exact-value selector S8, exactly as the test
`TestFuncSearch` asserts (`So(index, ShouldEqual, index8)`), even though S7
(the prefix rule `com.example.*`) has the lower insertion index and also
matches.  The claim's "lowest insertion index wins" tie-break does not
apply to this input. -/
theorem search_tiebreak_counterexample :
    (search testPolicyDB ["domain=com.example.web"]).1 ≠ 7 ∧
      getSel testPolicyDB 6 = ⟨[domainParent], acceptPol⟩ ∧
      getSel testPolicyDB 7 = ⟨[domainFull], acceptPol⟩ := by
  decide

/-- C2 (amended): on the `TestFuncSearch` database, `Search` on
`{domain=com.example.web}` returns S8's index 8 with S8's policy: the
exact-value hit completes selector S8 during the scan before any prefix
entry is consulted, so the later-added exact rule wins over the
earlier-added prefix rule S7; the lowest-insertion-index tie-break governs
only selectors completed at finalization. -/
theorem search_exact_value_beats_earlier_prefix_rule :
    search testPolicyDB ["domain=com.example.web"] = (8, some acceptPol) ∧
      search testPolicyDB ["domain=com.example.db"] = (7, some acceptPol) := by
  decide

/-! ## UDP handshake datapath (`nfqdatapath/datapath_udp.go`)

The datapath functions are embedded with an explicit event trace recording
their externally visible effects.  External collaborators (token accessor,
connection trackers, conntrack handle, service hooks) are supplied as oracle
inputs; raw-socket write failures are only logged by the source and do not
change control flow, so socket writes always appear as events. -/

inductive UDPPacketType
  | Syn
  | SynAck
  | Ack
  | Data
deriving DecidableEq, Repr

inductive ConnState
  | UDPSynStart
  | UDPSynSend
  | UDPSynReceived
  | UDPSynAckSent
  | UDPSynAckReceived
  | UDPAckReceived
  | UDPAckProcessed
deriving DecidableEq, Repr

/-- The collector reasons used by the UDP datapath's rejected-flow reports. -/
inductive DropReason
  | invalidToken
  | missingToken
  | policyDrop
deriving DecidableEq, Repr

structure UDPConn where
  state : ConnState
  serviceConnection : Bool
  packetQueue : List Nat
  reportFlowPolicy : Option FlowPolicy
  packetFlowPolicy : Option FlowPolicy
deriving DecidableEq, Repr

/-- `connection.NewUDPConnection`: fresh state `UDPSynStart`, zero-valued
service flag and empty queue. -/
def newUDPConnection : UDPConn :=
  ⟨ConnState.UDPSynStart, false, [], none, none⟩

structure PUCtx where
  managementID : String
  rcvRules : List TagSelector
  txtRules : List TagSelector
  dnsACLs : List (String × String)
deriving DecidableEq, Repr

inductive WritePkt
  | synPkt
  | synAckPkt
  | ackPkt
  | queuedPkt (id : Nat)
deriving DecidableEq, Repr

structure IPRule where
  address : String
  port : String
  protocol : String
  policy : FlowPolicy
deriving DecidableEq, Repr

inductive Ev
  | reportRejected (reason : DropReason)
  | reportAccepted
  | conntrackUpdate
  | sockWrite (w : WritePkt)
  | searchRcv (tags : List String)
  | queuePacket
  | dnsProcessed
deriving DecidableEq, Repr

/-- Result of `tokenAccessor.ParsePacketToken`: a Go error, a nil claims
pointer, or parsed claims carrying the peer's tag store. -/
inductive ParseOutcome
  | parseErr
  | nilClaims
  | ok (tags : List String)
deriving DecidableEq, Repr

inductive Verdict
  | accept
  | drop
  | crash
deriving DecidableEq, Repr

/-- `enforcerconstants.PortNumberLabelString` (spec: the synthetic claim key
`@port`). -/
def portNumberLabelString : String := "@port"

/-- Modelled from the spec: `pucontext.SearchRcvRules` is not in the provided
sources; per the spec it delegates to the receive-rule policy DB and a claim
set matching no rule is rejected against the catch-all policy. -/
def searchRcvRules (ctx : PUCtx) (tags : List String) : FlowPolicy × FlowPolicy :=
  match search ctx.rcvRules tags with
  | (_, some pol) => (pol, pol)
  | (_, none) => (catchAllPolicy, catchAllPolicy)

/-- The default accept policy used when mutual authorization is disabled. -/
def acceptDefaultPolicy : FlowPolicy :=
  ⟨FlowAction.Accept, ObserveMode.ObserveNone, "default", "default"⟩

/-- Modelled from the spec: `pucontext.SearchTxtRules` delegates to the
transmit-rule policy DB; with `skipIfMutualAuthDisabled` and no hit it
returns the default accept policy, otherwise the catch-all reject. -/
def searchTxtRules (ctx : PUCtx) (tags : List String) (skip : Bool) :
    FlowPolicy × FlowPolicy :=
  match search ctx.txtRules tags with
  | (_, some pol) => (pol, pol)
  | (_, none) =>
    if skip then (acceptDefaultPolicy, acceptDefaultPolicy)
    else (catchAllPolicy, catchAllPolicy)

/-- `processNetworkUDPSynPacket`: parse the token (parse error or nil claims
→ rejected-flow report with `InvalidToken` and a non-nil error), append the
synthetic `@port=<decimal destination port>` claim, search the receive
rules, and reject with a `PolicyDrop` report when the packet policy rejects.
Returns the event trace and `true` for a nil error. -/
def processNetworkUDPSynPacket (ctx : PUCtx) (parse : ParseOutcome) (dstPort : Nat) :
    List Ev × Bool :=
  match parse with
  | ParseOutcome.parseErr => ([Ev.reportRejected DropReason.invalidToken], false)
  | ParseOutcome.nilClaims => ([Ev.reportRejected DropReason.invalidToken], false)
  | ParseOutcome.ok tags =>
    let tags' := tags ++ [portNumberLabelString ++ "=" ++ toString dstPort]
    let rp := searchRcvRules ctx tags'
    if rp.2.action = FlowAction.Reject then
      ([Ev.searchRcv tags', Ev.reportRejected DropReason.policyDrop], false)
    else
      ([Ev.searchRcv tags'], true)

/-- `processNetworkUDPSynAckPacket`: a parse error or nil claims yields a
rejected-flow report with reason `MissingToken` (not `InvalidToken`) and a
non-nil error; a transmit-rule reject yields a `PolicyDrop` report. -/
def processNetworkUDPSynAckPacket (ctx : PUCtx) (parse : ParseOutcome)
    (mutualAuthorization : Bool) : List Ev × Bool :=
  match parse with
  | ParseOutcome.parseErr => ([Ev.reportRejected DropReason.missingToken], false)
  | ParseOutcome.nilClaims => ([Ev.reportRejected DropReason.missingToken], false)
  | ParseOutcome.ok tags =>
    let rp := searchTxtRules ctx tags (!mutualAuthorization)
    if rp.2.action = FlowAction.Reject then
      ([Ev.reportRejected DropReason.policyDrop], false)
    else
      ([], true)

/-- `processNetworkUDPAckPacket`: a failed `ParseAckToken` yields a
rejected-flow report with reason `PolicyDrop` (not `InvalidToken`) and a
non-nil error; on success the conntrack mark is installed for non-service
connections and the accepted flow is reported. -/
def processNetworkUDPAckPacket (conn : UDPConn) (parseAckOk : Bool) :
    List Ev × Bool :=
  if parseAckOk then
    ((if conn.serviceConnection then [] else [Ev.conntrackUpdate]) ++
        [Ev.reportAccepted], true)
  else
    ([Ev.reportRejected DropReason.policyDrop], false)

/-- `sendUDPSynAckPacket`: pre-hook, token creation and post-hook may fail;
otherwise the SYNACK is written on the raw socket (write errors are only
logged). -/
def sendUDPSynAckPacket (servicePresent preHookOk postHookOk createTokOk : Bool) :
    List Ev × Bool :=
  if servicePresent && !preHookOk then ([], false)
  else if !createTokOk then ([], false)
  else if servicePresent && !postHookOk then ([], false)
  else ([Ev.sockWrite WritePkt.synAckPkt], true)

/-- The queued-payload transmission loop at the end of `sendUDPAckPacket`:
each queued packet passes the post-service hook (when a service is
configured; a `false` return aborts with an error) and is then written to
the socket in queue order. -/
def transmitQueue (servicePresent : Bool) (hookOk : Nat → Bool) :
    List Nat → List Ev × Bool
  | [] => ([], true)
  | q :: rest =>
    if servicePresent && !hookOk q then ([], false)
    else
      let r := transmitQueue servicePresent hookOk rest
      (Ev.sockWrite (WritePkt.queuedPkt q) :: r.1, r.2)

/-- `sendUDPAckPacket`: create the ACK token, resolve the pre-NAT
destination from `udpNatConnectionTracker` (failure → error), write the ACK
on the raw socket, set state `UDPAckProcessed`, install the conntrack mark
for non-service connections, then transmit the queued payload packets in
order. -/
def sendUDPAckPacket (conn : UDPConn) (servicePresent : Bool)
    (queuedHookOk : Nat → Bool) (createTokOk : Bool)
    (natEntry : Option (String × Nat)) : List Ev × Bool :=
  if !createTokOk then ([], false)
  else
    match natEntry with
    | none => ([], false)
    | some _ =>
      let tq := transmitQueue servicePresent queuedHookOk conn.packetQueue
      (Ev.sockWrite WritePkt.ackPkt ::
        ((if conn.serviceConnection then [] else [Ev.conntrackUpdate]) ++ tq.1), tq.2)

/-- Oracle inputs for one network packet: its classification and ports, the
outcomes of the cache/context lookups, the token accessor, and the service
hooks. -/
structure NetInputs where
  sourcePort : Nat
  destinationPort : Nat
  udpType : UDPPacketType
  synCtxLookup : Option PUCtx
  synAckCacheConn : Option UDPConn
  ackConnLookup : Option UDPConn
  cachedCtx : PUCtx
  servicePresent : Bool
  preNetHookOk : Bool
  postNetHookOk : Bool
  parse : ParseOutcome
  parseAckOk : Bool
  mutualAuthorization : Bool
  preAppHookOk : Bool
  postAppHookOk : Bool
  createTokOk : Bool
  natEntry : Option (String × Nat)
  queuedHookOk : Nat → Bool

/-- `processNetUDPPacket`: dispatch on the packet type.  The boolean is
`true` when the function returns a nil error; the ACK branch returns a
non-nil error even on success ("Drop udp ack (net) handshake packet"). -/
def processNetUDPPacket (inp : NetInputs) (ctx : PUCtx) (conn : UDPConn) :
    List Ev × Bool :=
  match inp.udpType with
  | UDPPacketType.Syn =>
    let r := processNetworkUDPSynPacket ctx inp.parse inp.destinationPort
    if !r.2 then (r.1, false)
    else if inp.servicePresent && !inp.postNetHookOk then (r.1, false)
    else
      let s := sendUDPSynAckPacket inp.servicePresent inp.preAppHookOk
        inp.postAppHookOk inp.createTokOk
      (r.1 ++ s.1, s.2)
  | UDPPacketType.Ack =>
    let r := processNetworkUDPAckPacket conn inp.parseAckOk
    if !r.2 then (r.1, false)
    else if inp.servicePresent && !inp.postNetHookOk then (r.1, false)
    else (r.1, false)
  | UDPPacketType.SynAck =>
    let r := processNetworkUDPSynAckPacket ctx inp.parse inp.mutualAuthorization
    if !r.2 then (r.1, false)
    else if inp.servicePresent && !inp.postNetHookOk then (r.1, false)
    else
      let s := sendUDPAckPacket conn inp.servicePresent inp.queuedHookOk
        inp.createTokOk inp.natEntry
      (r.1 ++ s.1, s.2)
  | UDPPacketType.Data => ([], true)

/-- The tail of `ProcessNetworkUDPPacket` shared by the SYN/SYNACK/ACK
branches: the service pre-hook and `processNetUDPPacket` both dereference
the connection (`conn.Context`).  With a non-nil connection the branch
always returns a non-nil error — on inner failure the wrapped error, and on
inner success "Drop net hanshake packets (udp)". -/
def netHandshakeTail (inp : NetInputs) (ctx : PUCtx) (conn : UDPConn) :
    List Ev × Verdict :=
  if inp.servicePresent && !inp.preNetHookOk then ([], Verdict.drop)
  else
    let r := processNetUDPPacket inp ctx conn
    (r.1, Verdict.drop)

/-- `ProcessNetworkUDPPacket`.  Source port 53 is handed to the DNS
processor and accepted.  A SYNACK whose source-port hash misses
`udpSourcePortConnectionCache` leaves `conn = nil` with a nil error
(`netSynAckUDPRetrieveState` "ignore the syn ack packet"), after which the
function evaluates `conn.Context` — a nil-pointer dereference, modelled as
`Verdict.crash`. -/
def ProcessNetworkUDPPacket (inp : NetInputs) : List Ev × Verdict :=
  if inp.sourcePort = 53 then ([Ev.dnsProcessed], Verdict.accept)
  else
    match inp.udpType with
    | UDPPacketType.Syn =>
      match inp.synCtxLookup with
      | none => ([], Verdict.drop)
      | some ctx =>
        netHandshakeTail inp ctx
          ⟨ConnState.UDPSynReceived, false, [], none, none⟩
    | UDPPacketType.SynAck =>
      match inp.synAckCacheConn with
      | none => ([], Verdict.crash)
      | some conn => netHandshakeTail inp inp.cachedCtx conn
    | UDPPacketType.Ack =>
      match inp.ackConnLookup with
      | none => ([], Verdict.drop)
      | some conn => netHandshakeTail inp inp.cachedCtx conn
    | UDPPacketType.Data =>
      match inp.ackConnLookup with
      | none => ([], Verdict.drop)
      | some _ =>
        if inp.servicePresent && !inp.postNetHookOk then ([], Verdict.drop)
        else ([], Verdict.accept)

/-! ### Application-side processing -/

/-- Oracle inputs for one application packet. -/
structure AppInputs where
  destinationPort : Nat
  connLookup : Option UDPConn
  queueOk : Bool
  servicePresent : Bool
  preAppHookOk : Bool
  createTokOk : Bool
  postAppHookOk : Bool

/-- `processApplicationUDPSynPacket`: pre-hook, SYN token creation, clone,
raw-socket write of the header-only SYN, tracker bookkeeping, post-hook. -/
def processApplicationUDPSynPacket (servicePresent preHookOk createTokOk postHookOk : Bool) :
    List Ev × Bool :=
  if servicePresent && !preHookOk then ([], false)
  else if !createTokOk then ([], false)
  else if servicePresent && !postHookOk then ([Ev.sockWrite WritePkt.synPkt], false)
  else ([Ev.sockWrite WritePkt.synPkt], true)

/-- `ProcessApplicationUDPPacket`.  Destination port 53 goes to the DNS
processor and is accepted.  When the connection is not yet in
`UDPAckProcessed` the packet is queued first; the `UDPSynStart` branch then
sends the SYN and, like every remaining state, falls through to the final
"Packets cloned. Dropping the original packet" error, so only the
`UDPAckProcessed` state (with a passing post-hook) accepts. -/
def ProcessApplicationUDPPacket (inp : AppInputs) : List Ev × Verdict :=
  if inp.destinationPort = 53 then ([Ev.dnsProcessed], Verdict.accept)
  else
    match inp.connLookup with
    | none => ([], Verdict.drop)
    | some conn =>
      if conn.state ≠ ConnState.UDPAckProcessed ∧ inp.queueOk = false then
        ([], Verdict.drop)
      else
        match conn.state with
        | ConnState.UDPSynStart =>
          (Ev.queuePacket ::
              (processApplicationUDPSynPacket inp.servicePresent inp.preAppHookOk
                inp.createTokOk inp.postAppHookOk).1,
            Verdict.drop)
        | ConnState.UDPAckProcessed =>
          if inp.servicePresent && !inp.postAppHookOk then ([], Verdict.drop)
          else ([], Verdict.accept)
        | _ => ([Ev.queuePacket], Verdict.drop)

/-! ### DNS-triggered ACL expansion (`processDNSTraffic`, response side) -/

structure DNSAnswer where
  name : String
  dataLength : Nat
  ip : String
deriving DecidableEq, Repr

/-- `cache.Get` on the DNS ACL store: first binding for the name. -/
def dnsGet (acls : List (String × String)) (name : String) : Option String :=
  (acls.find? (fun kv => decide (kv.1 = name))).map Prod.snd

/-- The rule built for one DNS answer IP and one port token:
`policy.IPRule{Address, Port, Protocol: "TCP", Policy: Accept/ObserveNone/
default/default}`. -/
def mkDNSRule (ip port : String) : IPRule :=
  ⟨ip, port, "TCP",
    ⟨FlowAction.Accept, ObserveMode.ObserveNone, "default", "default"⟩⟩

/-- Go `strings.Split(s, ",")`. -/
def splitCommaAux : List Char → List Char → List String
  | [], acc => [String.mk acc.reverse]
  | c :: rest, acc =>
    if c = ',' then String.mk acc.reverse :: splitCommaAux rest []
    else splitCommaAux rest (c :: acc)

def splitCSV (s : String) : List String :=
  splitCommaAux s.data []

/-- The response side of `processDNSTraffic`: with no cached PU context for
the destination port, nothing happens; otherwise every answer of data
length 4 whose name is bound in the context's DNS ACLs contributes one
`AddRule` call per comma-separated port token.  The returned list is the
sequence of rules passed to `ApplicationACLs.AddRule`, in order. -/
def processDNSResponse (ctx? : Option PUCtx) (answers : List DNSAnswer) :
    List IPRule :=
  match ctx? with
  | none => []
  | some ctx =>
    answers.flatMap (fun a =>
      if a.dataLength = 4 then
        match dnsGet ctx.dnsACLs a.name with
        | some val => (splitCSV val).map (fun port => mkDNSRule a.ip port)
        | none => []
      else [])

/-! ### Theorems about the UDP datapath -/

theorem transmitQueue_trace (sp : Bool) (hookOk : Nat → Bool) (l : List Nat) :
    (transmitQueue sp hookOk l).1 =
      (if sp then l.takeWhile hookOk else l).map
        (fun q => Ev.sockWrite (WritePkt.queuedPkt q)) := by
  induction l with
  | nil => cases sp <;> simp [transmitQueue]
  | cons q rest ih =>
    cases sp with
    | false => simpa [transmitQueue] using ih
    | true =>
      by_cases h : hookOk q
      · simp [transmitQueue, h, List.takeWhile_cons, ih]
      · simp [transmitQueue, h, List.takeWhile_cons]

/-- C3: in `sendUDPAckPacket`, once the ACK token is created and the NAT
entry resolves, a non-service connection installs the conntrack mark before
the first queued payload packet is written, and the queued payload packets
are transmitted in queue order (the transmitted packets are a prefix of the
queue, the whole queue when no service hook can abort the loop). -/
theorem sendUDPAck_conntrack_before_queued (conn : UDPConn) (servicePresent : Bool)
    (queuedHookOk : Nat → Bool) (ip : String) (port : Nat)
    (hsvc : conn.serviceConnection = false) :
    ∃ sent, sent <+: conn.packetQueue ∧
      (sendUDPAckPacket conn servicePresent queuedHookOk true (some (ip, port))).1 =
        [Ev.sockWrite WritePkt.ackPkt, Ev.conntrackUpdate] ++
          sent.map (fun q => Ev.sockWrite (WritePkt.queuedPkt q)) ∧
      (servicePresent = false → sent = conn.packetQueue) := by
  refine ⟨if servicePresent then conn.packetQueue.takeWhile queuedHookOk
    else conn.packetQueue, ?_, ?_, ?_⟩
  · cases servicePresent
    · simp
    · simpa using List.takeWhile_prefix queuedHookOk
  · simp [sendUDPAckPacket, hsvc, transmitQueue_trace]
  · intro h
    simp [h]

def c3ConnEx : UDPConn :=
  ⟨ConnState.UDPSynAckReceived, false, [1, 2], none, none⟩

theorem sendUDPAck_conntrack_before_queued_witness :
    c3ConnEx.serviceConnection = false ∧
      ∃ sent, sent <+: c3ConnEx.packetQueue ∧
        (sendUDPAckPacket c3ConnEx false (fun _ => true) true
            (some ("10.0.0.1", 4000))).1 =
          [Ev.sockWrite WritePkt.ackPkt, Ev.conntrackUpdate] ++
            sent.map (fun q => Ev.sockWrite (WritePkt.queuedPkt q)) ∧
        (false = false → sent = c3ConnEx.packetQueue) :=
  ⟨rfl, sendUDPAck_conntrack_before_queued c3ConnEx false (fun _ => true)
    "10.0.0.1" 4000 rfl⟩

/-- A network SYNACK packet (source port 4000, not DNS) whose source-port
hash has no entry in `udpSourcePortConnectionCache`. -/
def synAckMissInput : NetInputs :=
  ⟨4000, 5000, UDPPacketType.SynAck, none, none, none, ⟨"pu1", [], [], []⟩,
    false, true, true, ParseOutcome.parseErr, false, false, true, true, true,
    none, fun _ => true⟩

/-- C4: a network SYNACK with no prior SYN state in
`udpSourcePortConnectionCache` does not drop silently —
`netSynAckUDPRetrieveState` returns a nil connection with a nil error and
`ProcessNetworkUDPPacket` then dereferences `conn.Context`, a nil-pointer
dereference that crashes the datapath.  No report is emitted and nothing is
written before the crash (the trace is empty), but the function does not
complete. -/
theorem synack_cache_miss_crashes :
    ProcessNetworkUDPPacket synAckMissInput = ([], Verdict.crash) := rfl

theorem netHandshakeTail_verdict (inp : NetInputs) (ctx : PUCtx) (conn : UDPConn) :
    (netHandshakeTail inp ctx conn).2 = Verdict.drop := by
  unfold netHandshakeTail
  split <;> rfl

/-- C6: a network UDP packet classified as a handshake control packet (SYN,
SYNACK or ACK; not the DNS source port) never yields a nil error from
`ProcessNetworkUDPPacket` — even when the handshake step succeeds the
function returns "Drop net hanshake packets (udp)", so a handshake packet is
never delivered to the application. -/
theorem net_handshake_never_delivered (inp : NetInputs)
    (hport : inp.sourcePort ≠ 53) (htype : inp.udpType ≠ UDPPacketType.Data) :
    (ProcessNetworkUDPPacket inp).2 ≠ Verdict.accept := by
  unfold ProcessNetworkUDPPacket
  rw [if_neg hport]
  cases htyp : inp.udpType with
  | Syn =>
    cases hl : inp.synCtxLookup with
    | none => simp
    | some ctx => simp [netHandshakeTail_verdict]
  | SynAck =>
    cases hl : inp.synAckCacheConn with
    | none => simp
    | some conn => simp [netHandshakeTail_verdict]
  | Ack =>
    cases hl : inp.ackConnLookup with
    | none => simp
    | some conn => simp [netHandshakeTail_verdict]
  | Data => exact absurd htyp htype

/-- A successfully authorized network SYN: context found, token parses,
claims match no receive rule reject (empty DB rejects via catch-all, so use
a DB whose first selector accepts everything via KeyNotExists on an unused
key). -/
def synOkInput : NetInputs :=
  ⟨4000, 5000, UDPPacketType.Syn,
    some ⟨"pu1", [⟨[⟨"never", [], TagOperator.KeyNotExists, ""⟩], acceptPol⟩], [], []⟩,
    none, none, ⟨"pu1", [], [], []⟩, false, true, true,
    ParseOutcome.ok ["app=web"], true, false, true, true, true, none,
    fun _ => true⟩

theorem net_handshake_never_delivered_witness :
    synOkInput.sourcePort ≠ 53 ∧ synOkInput.udpType ≠ UDPPacketType.Data ∧
      (ProcessNetworkUDPPacket synOkInput).2 ≠ Verdict.accept :=
  ⟨by decide, by decide,
    net_handshake_never_delivered synOkInput (by decide) (by decide)⟩

/-- C5 counterexample: a SYNACK whose token fails to parse is dropped with a
rejected-flow report whose reason is `MissingToken`, not `InvalidToken`, so
the claim that all three handshake processors report `InvalidToken` on token
failure is false. -/
theorem token_failure_reason_counterexample :
    processNetworkUDPSynAckPacket ⟨"pu1", [], [], []⟩ ParseOutcome.parseErr false =
      ([Ev.reportRejected DropReason.missingToken], false) ∧
      DropReason.missingToken ≠ DropReason.invalidToken :=
  ⟨rfl, by decide⟩

/-- C5 (amended): a handshake packet whose token fails to parse or yields
nil claims is dropped with a non-nil error and exactly one rejected-flow
report, whose reason is `InvalidToken` for a SYN, `MissingToken` for a
SYNACK, and `PolicyDrop` for an ACK (with a failed `ParseAckToken`). -/
theorem token_failure_reports (ctx : PUCtx) (conn : UDPConn)
    (parse : ParseOutcome) (dstPort : Nat) (ma : Bool)
    (h : parse = ParseOutcome.parseErr ∨ parse = ParseOutcome.nilClaims) :
    processNetworkUDPSynPacket ctx parse dstPort =
      ([Ev.reportRejected DropReason.invalidToken], false) ∧
      processNetworkUDPSynAckPacket ctx parse ma =
        ([Ev.reportRejected DropReason.missingToken], false) ∧
      processNetworkUDPAckPacket conn false =
        ([Ev.reportRejected DropReason.policyDrop], false) := by
  rcases h with h | h <;> subst h <;> exact ⟨rfl, rfl, rfl⟩

theorem token_failure_reports_witness :
    (ParseOutcome.parseErr = ParseOutcome.parseErr ∨
        ParseOutcome.parseErr = ParseOutcome.nilClaims) ∧
      processNetworkUDPSynPacket ⟨"pu1", [], [], []⟩ ParseOutcome.parseErr 443 =
        ([Ev.reportRejected DropReason.invalidToken], false) :=
  ⟨Or.inl rfl,
    (token_failure_reports ⟨"pu1", [], [], []⟩ newUDPConnection
      ParseOutcome.parseErr 443 false (Or.inl rfl)).1⟩

/-- C7: when a network SYN's token parses, the synthetic claim
`@port=<decimal destination port>` is appended to the parsed claims before
the receive-rule lookup, so the (unique) `SearchRcvRules` invocation sees
exactly the parsed claims extended with the port claim. -/
theorem syn_appends_port_claim (ctx : PUCtx) (parse : ParseOutcome)
    (tags : List String) (dstPort : Nat) (h : parse = ParseOutcome.ok tags) :
    Ev.searchRcv (tags ++ [portNumberLabelString ++ "=" ++ toString dstPort]) ∈
        (processNetworkUDPSynPacket ctx parse dstPort).1 ∧
      ∀ t, Ev.searchRcv t ∈ (processNetworkUDPSynPacket ctx parse dstPort).1 →
        t = tags ++ [portNumberLabelString ++ "=" ++ toString dstPort] := by
  subst h
  by_cases hr : (searchRcvRules ctx
      (tags ++ [portNumberLabelString ++ "=" ++ toString dstPort])).2.action =
        FlowAction.Reject
  · constructor
    · simp [processNetworkUDPSynPacket, hr]
    · intro t ht
      simp [processNetworkUDPSynPacket, hr] at ht
      exact ht
  · constructor
    · simp [processNetworkUDPSynPacket, hr]
    · intro t ht
      simp [processNetworkUDPSynPacket, hr] at ht
      exact ht

theorem syn_appends_port_claim_witness :
    ParseOutcome.ok ["app=web"] = ParseOutcome.ok ["app=web"] ∧
      Ev.searchRcv (["app=web"] ++ [portNumberLabelString ++ "=" ++ toString 80]) ∈
        (processNetworkUDPSynPacket ⟨"pu1", [], [], []⟩
          (ParseOutcome.ok ["app=web"]) 80).1 :=
  ⟨rfl,
    (syn_appends_port_claim ⟨"pu1", [], [], []⟩ (ParseOutcome.ok ["app=web"])
      ["app=web"] 80 rfl).1⟩

/-- C9: on a DNS response with a cached PU context, every A-record answer
(data length 4) whose name is bound in the context's DNS ACLs contributes,
for every port token of the comma-separated binding, the rule
`{address = answer IP, port = token, protocol = "TCP", Accept/ObserveNone/
default/default}` to the `AddRule` sequence; for a single answer the rule
for a port token occurs exactly as often as the token occurs in the CSV
(exactly once for distinct tokens). -/
theorem dns_expansion_rules (ctx : PUCtx) (answers : List DNSAnswer)
    (a : DNSAnswer) (val port : String) (ha : a ∈ answers) (h4 : a.dataLength = 4)
    (hg : dnsGet ctx.dnsACLs a.name = some val) (hp : port ∈ splitCSV val) :
    mkDNSRule a.ip port ∈ processDNSResponse (some ctx) answers ∧
      (processDNSResponse (some ctx) [a]).count (mkDNSRule a.ip port) =
        (splitCSV val).count port := by
  have hinj : Function.Injective (fun p => mkDNSRule a.ip p) := by
    intro p q hpq
    exact congrArg IPRule.port hpq
  constructor
  · simp only [processDNSResponse]
    refine List.mem_flatMap.mpr ⟨a, ha, ?_⟩
    simp only [h4, if_true, hg]
    exact List.mem_map.mpr ⟨port, hp, rfl⟩
  · simp only [processDNSResponse, List.flatMap_cons, List.flatMap_nil,
      List.append_nil, h4, if_true, hg]
    exact List.count_map_of_injective (splitCSV val) (fun p => mkDNSRule a.ip p)
      hinj port

def dnsCtxEx : PUCtx :=
  ⟨"pu1", [], [], [("api.example.com", "443")]⟩

def dnsAnswerEx : DNSAnswer :=
  ⟨"api.example.com", 4, "10.1.2.3"⟩

theorem dns_expansion_rules_witness :
    dnsAnswerEx ∈ [dnsAnswerEx] ∧
      mkDNSRule "10.1.2.3" "443" ∈ processDNSResponse (some dnsCtxEx) [dnsAnswerEx] ∧
      (processDNSResponse (some dnsCtxEx) [dnsAnswerEx]).count
          (mkDNSRule "10.1.2.3" "443") = (splitCSV "443").count "443" :=
  ⟨List.mem_singleton.mpr rfl,
    (dns_expansion_rules dnsCtxEx [dnsAnswerEx] dnsAnswerEx "443" "443"
        (List.mem_singleton.mpr rfl) rfl (by decide) (by decide)).1,
    (dns_expansion_rules dnsCtxEx [dnsAnswerEx] dnsAnswerEx "443" "443"
        (List.mem_singleton.mpr rfl) rfl (by decide) (by decide)).2⟩

/-- C10: `ProcessApplicationUDPPacket` returns a nil error only when the
destination port is 53 or the connection is in `UDPAckProcessed`; on every
other path that fails no sub-operation, the packet is first appended to the
connection's queue (the queue event leads the trace) and the function
returns a non-nil error, dropping the original packet while the handshake is
pending. -/
theorem appUDP_some_eq (inp : AppInputs) (conn : UDPConn)
    (h53 : inp.destinationPort ≠ 53) (hc : inp.connLookup = some conn) :
    ProcessApplicationUDPPacket inp =
      if conn.state ≠ ConnState.UDPAckProcessed ∧ inp.queueOk = false then
        ([], Verdict.drop)
      else
        match conn.state with
        | ConnState.UDPSynStart =>
          (Ev.queuePacket ::
              (processApplicationUDPSynPacket inp.servicePresent inp.preAppHookOk
                inp.createTokOk inp.postAppHookOk).1,
            Verdict.drop)
        | ConnState.UDPAckProcessed =>
          if inp.servicePresent && !inp.postAppHookOk then ([], Verdict.drop)
          else ([], Verdict.accept)
        | _ => ([Ev.queuePacket], Verdict.drop) := by
  unfold ProcessApplicationUDPPacket
  rw [if_neg h53, hc]

theorem app_udp_gate (inp : AppInputs) (conn : UDPConn)
    (hc : inp.connLookup = some conn) :
    ((ProcessApplicationUDPPacket inp).2 = Verdict.accept →
        inp.destinationPort = 53 ∨ conn.state = ConnState.UDPAckProcessed) ∧
      (inp.destinationPort ≠ 53 → conn.state ≠ ConnState.UDPAckProcessed →
        inp.queueOk = true →
        (ProcessApplicationUDPPacket inp).1.head? = some Ev.queuePacket ∧
          (ProcessApplicationUDPPacket inp).2 = Verdict.drop) := by
  by_cases h53 : inp.destinationPort = 53
  · exact ⟨fun _ => Or.inl h53, fun hne => absurd h53 hne⟩
  · constructor
    · intro hacc
      rw [appUDP_some_eq inp conn h53 hc] at hacc
      by_cases hst : conn.state = ConnState.UDPAckProcessed
      · exact Or.inr hst
      · exfalso
        by_cases hcond : conn.state ≠ ConnState.UDPAckProcessed ∧ inp.queueOk = false
        · rw [if_pos hcond] at hacc
          exact Verdict.noConfusion hacc
        · rw [if_neg hcond] at hacc
          revert hacc
          cases hcs : conn.state with
          | UDPAckProcessed => exact fun _ => hst hcs
          | UDPSynStart => exact fun hacc => Verdict.noConfusion hacc
          | UDPSynSend => exact fun hacc => Verdict.noConfusion hacc
          | UDPSynReceived => exact fun hacc => Verdict.noConfusion hacc
          | UDPSynAckSent => exact fun hacc => Verdict.noConfusion hacc
          | UDPSynAckReceived => exact fun hacc => Verdict.noConfusion hacc
          | UDPAckReceived => exact fun hacc => Verdict.noConfusion hacc
    · intro _ hst hq
      have hcond : ¬(conn.state ≠ ConnState.UDPAckProcessed ∧ inp.queueOk = false) := by
        intro hand
        rw [hq] at hand
        exact absurd hand.2 (by decide)
      rw [appUDP_some_eq inp conn h53 hc, if_neg hcond]
      cases hcs : conn.state with
      | UDPAckProcessed => exact absurd hcs hst
      | UDPSynStart => exact ⟨rfl, rfl⟩
      | UDPSynSend => exact ⟨rfl, rfl⟩
      | UDPSynReceived => exact ⟨rfl, rfl⟩
      | UDPSynAckSent => exact ⟨rfl, rfl⟩
      | UDPSynAckReceived => exact ⟨rfl, rfl⟩
      | UDPAckReceived => exact ⟨rfl, rfl⟩

def c10Input : AppInputs :=
  ⟨8080, some ⟨ConnState.UDPSynSend, false, [], none, none⟩, true, false,
    true, true, true⟩

theorem app_udp_gate_witness :
    c10Input.connLookup = some ⟨ConnState.UDPSynSend, false, [], none, none⟩ ∧
      (ProcessApplicationUDPPacket c10Input).1.head? = some Ev.queuePacket ∧
      (ProcessApplicationUDPPacket c10Input).2 = Verdict.drop :=
  ⟨rfl,
    (app_udp_gate c10Input ⟨ConnState.UDPSynSend, false, [], none, none⟩ rfl).2
      (by decide) (by decide) rfl⟩

end Trireme
